import Mathlib

/-!
Shallow embedding of the BookNest academic-companion web application
(`src/app.py`, a single Flask module) and verification of its
specification claims.

Modelling conventions:
* Python strings are Lean `String`; `str.strip()` is modelled by
  `strTrim` and `str.lower()` by `strLower`, character-level versions of
  the core `String.trim` and `String.toLower` (see the note below).
* Byte payloads are `List Nat`.
* The SQLAlchemy table `documents` is a list of `Document` records plus a
  fresh-primary-key counter; `Document.query.filter_by(...).first()` is
  `List.find?` over that list, and an ORM in-place row mutation is an
  in-place update of the first matching element (`updateFirst`).
* The ambient Flask `session` is an explicit `Session` value, the form
  data of a request is an explicit record, and each route handler is a
  function from (session, request data, database state) to a `Response`
  together with the resulting database state.
* The `updated_at` column (SQLAlchemy `default`/`onupdate` of the current
  time) is a `Nat` timestamp; route handlers take the current time `now`
  and row creation or mutation stamps it.
* Python truthiness of optional strings (`if not name:` etc.) is
  `(·.getD "") = ""`; werkzeug file-field truthiness is
  `filename ≠ ""` on a present part.
-/

namespace BookNest

/-!
Executable character-level models of the Python string methods the
application uses. (The core `String.toLower`, `String.trim`,
`String.endsWith` and `String.replace` are byte-position based and do not
reduce inside the kernel, so the embedding works on `String.data`, the
underlying character list.)
-/

/-- Python `str.lower()`. -/
def strLower (s : String) : String :=
  ⟨s.data.map Char.toLower⟩

/-- Python `str.strip()`: drop whitespace from both ends. -/
def strTrim (s : String) : String :=
  ⟨((s.data.dropWhile Char.isWhitespace).reverse.dropWhile
      Char.isWhitespace).reverse⟩

/-- Python `s.endswith(t)`. -/
def strEndsWith (s t : String) : Bool :=
  t.data.isSuffixOf s.data

/-- Python `s.replace(a, b)` for a single-character pattern (the only use
in the source is `doc.subject.replace(" ", "_")`). -/
def strReplaceChar (s : String) (a b : Char) : String :=
  ⟨s.data.map (fun c => if c == a then b else c)⟩

/-- Byte-wise lexicographic comparison of character lists, the SQLite
default (BINARY) collation used by `order_by(Document.subject.asc())`. -/
def charListLe : List Char → List Char → Bool
  | [], _ => true
  | _ :: _, [] => false
  | a :: as, b :: bs => if a == b then charListLe as bs else decide (a < b)

/-- String comparison for the subject ordering. -/
def strLe (a b : String) : Bool :=
  charListLe a.data b.data

/-- Insert into a sorted list (helper for `sortBy`). -/
def insertLe (le : α → α → Bool) (x : α) : List α → List α
  | [] => [x]
  | y :: ys => if le x y then x :: y :: ys else y :: insertLe le x ys

/-- Stable insertion sort, modelling Python `sorted` and the SQL
`ORDER BY ... ASC`. -/
def sortBy (le : α → α → Bool) : List α → List α
  | [] => []
  | x :: xs => insertLe le x (sortBy le xs)

/-- A Python value fed to `valid_domain_mail`: a string, or anything else
(`None`, a missing field, a non-string), which the `isinstance` guard
rejects. -/
inductive PyVal where
  | str (s : String)
  | nonstr
deriving DecidableEq, Repr

def ALLOWED_DOMAIN : String := "@gvpce.ac.in"

def ADMIN_EMAIL : String := "ravitejadasari873@gmail.com"

/-- `valid_domain_mail` from `src/app.py` lines 20-25: allow institute
emails or the one admin Gmail. -/
def valid_domain_mail : PyVal → Bool
  | .str email =>
      let e := strLower (strTrim email)
      strEndsWith e ALLOWED_DOMAIN || e == ADMIN_EMAIL
  | .nonstr => false

/-- Flask session state: the two keys the application stores. -/
structure Session where
  user_name : Option String
  user_email : Option String
deriving DecidableEq, Repr

/-- `is_admin` from `src/app.py` lines 27-29: the current session user is
the admin iff `(session.get("user_email") or "").strip().lower()` equals
the admin email. -/
def is_admin (s : Session) : Bool :=
  strLower (strTrim (s.user_email.getD "")) == ADMIN_EMAIL

abbrev Bytes := List Nat

/-- A row of the `documents` table (`class Document`, `src/app.py`
lines 34-45). -/
structure Document where
  id : Nat
  semester : Nat
  subject : String
  filename : Option String
  data : Option Bytes
  mimetype : Option String
  updated_at : Nat
deriving DecidableEq, Repr

/-- `Document.has_pdf` from `src/app.py` lines 44-45. -/
def Document.has_pdf (d : Document) : Bool :=
  match d.data with
  | none => false
  | some b => decide (b.length > 0)

/-- The database: the `documents` table rows in insertion (rowid) order,
plus the next auto-increment primary key. -/
structure DBState where
  docs : List Document
  nextId : Nat
deriving DecidableEq, Repr

/-- The hard-coded curriculum table `SEMESTERS` (`src/app.py`
lines 50-85), in declaration order. -/
def SEMESTERS : List (Nat × List String) :=
  [(1, ["C and Data Structures",
        "Introduction to Python Programming",
        "Computer Organization",
        "Operating Systems",
        "Mathematical Foundations of Computer Applications"]),
   (2, ["Data Base Management Systems",
        "Object Oriented Programming through Java",
        "Design and Analysis of Algorithms",
        "E-commerce",
        "Artificial Intelligence",
        "Organizational Structural Human Resource Management",
        "Fundamentals of Data Science"]),
   (3, ["Web Technologies & Services",
        "Networking and Cloud Computing",
        "Internet of Things",
        "Introduction to Machine Learning",
        "Management Information Systems",
        "Big Data Analytics",
        "Data Warehouse and Data Mining"]),
   (4, ["Cyber Security",
        "Software Engineering",
        "Social Network Analysis",
        "Computer Vision",
        "Applied Natural Language Processing",
        "Block Chain and its Applications"])]

/-- The iteration order of the nested loops in `ensure_subject_rows`:
every `(semester, subject)` pair of `SEMESTERS` in declaration order. -/
def catalogPairs : List (Nat × String) :=
  SEMESTERS.flatMap (fun p => p.2.map (fun subj => (p.1, subj)))

/-- Mutate the first row matching `p` in place: the ORM object returned by
`Document.query.filter_by(...).first()` is edited and the edit is flushed
at commit. -/
def updateFirst (p : Document → Bool) (f : Document → Document) :
    List Document → List Document
  | [] => []
  | d :: ds => if p d then f d :: ds else d :: updateFirst p f ds

/-- One iteration of the loop body of `ensure_subject_rows`
(`src/app.py` lines 93-102) for the pair `(sem, subj)`: look up the row by
subject; insert a fresh row when absent (`db.session.add`, flushed before
the next query), otherwise re-point its semester when it changed. A fresh
row carries the SQLAlchemy column defaults: no filename, no data, mimetype
`application/pdf`, `updated_at` the current time. -/
def ensureStep (now : Nat) (st : DBState) (pair : Nat × String) : DBState :=
  match st.docs.find? (fun d => d.subject == pair.2) with
  | none =>
      { docs := st.docs ++
          [{ id := st.nextId, semester := pair.1, subject := pair.2,
             filename := none, data := none,
             mimetype := some "application/pdf", updated_at := now }],
        nextId := st.nextId + 1 }
  | some row =>
      if row.semester ≠ pair.1 then
        { st with
          docs := updateFirst (fun d => d.subject == pair.2)
            (fun d => { d with semester := pair.1, updated_at := now })
            st.docs }
      else st

/-- `ensure_subject_rows` from `src/app.py` lines 90-104: ensure every
subject of `SEMESTERS` exists in the database once with the correct
semester mapping. Rows for subjects removed from the mapping are not
deleted. -/
def ensure_subject_rows (now : Nat) (st : DBState) : DBState :=
  catalogPairs.foldl (ensureStep now) st

/-!  The HTTP layer: routes, flash messages, responses, form data. -/

/-- The URL targets `url_for` can name. -/
inductive Route where
  | landing
  | welcome
  | semester_page (sem_id : Nat)
  | download (doc_id : Nat)
  | manage
deriving DecidableEq, Repr

/-- A flashed message: `flash(message, category)`. -/
structure Flash where
  message : String
  category : String
deriving DecidableEq, Repr

/-- What a route handler returns: a redirect (with the flash set on the
way out, if any), an `abort(404)`, one of the four rendered templates with
the data passed to `render_template`, or a `send_file` attachment. -/
inductive Response where
  | redirect (target : Route) (flash : Option Flash)
  | notFound
  | loginPage (allowed_domain : String)
  | welcomePage (name : String) (semesters : List Nat) (is_admin : Bool)
  | subjectsPage (sem : Nat) (docs : List Document) (name : String)
      (is_admin : Bool)
  | managePage (grouped : List (Nat × List Document))
  | file (data : Bytes) (mimetype : String) (as_attachment : Bool)
      (download_name : String)
deriving DecidableEq, Repr

inductive Method where
  | get
  | post
deriving DecidableEq, Repr

/-- The landing form: `request.form.get("name", "")` and
`request.form.get("email", "")`, with the `.get` default already
applied. -/
structure LoginForm where
  name : String
  email : String
deriving DecidableEq, Repr

/-- Python `or` fallback on an optional string column
(`doc.mimetype or "application/pdf"`): `None` and `""` are falsy. -/
def pyOrStr (o : Option String) (dflt : String) : String :=
  match o with
  | some s => if s == "" then dflt else s
  | none => dflt

/-- `landing` from `src/app.py` lines 109-128. Returns the response and
the session as left by the handler. -/
def landing (m : Method) (form : LoginForm) (sess : Session) :
    Response × Session :=
  match m with
  | .post =>
      let name := strTrim form.name
      let email := strTrim form.email
      if name == "" then
        (.redirect .landing (some ⟨"Please enter your name.", "error"⟩),
         sess)
      else if !valid_domain_mail (.str email) then
        (.redirect .landing
           (some ⟨"Enter a valid institute email ending with " ++
                    ALLOWED_DOMAIN ++ " (or admin email).", "error"⟩),
         sess)
      else
        (.redirect .welcome none,
         { user_name := some name, user_email := some email })
  | .get => (.loginPage ALLOWED_DOMAIN, sess)

/-- `welcome` from `src/app.py` lines 130-135. `if not name:` treats a
missing key and the empty string alike. -/
def welcome (sess : Session) : Response :=
  let name := sess.user_name.getD ""
  if name == "" then .redirect .landing none
  else
    .welcomePage name (sortBy Nat.ble (SEMESTERS.map Prod.fst))
      (is_admin sess)

/-- `semester_page` from `src/app.py` lines 137-146. Returns the response
and the database state (the route runs `ensure_subject_rows`). -/
def semester_page (sess : Session) (sem_id : Nat) (now : Nat)
    (st : DBState) : Response × DBState :=
  let name := sess.user_name.getD ""
  if name == "" then (.redirect .landing none, st)
  else if !((SEMESTERS.map Prod.fst).contains sem_id) then (.notFound, st)
  else
    let st1 := ensure_subject_rows now st
    let docs := sortBy (fun a b => strLe a.subject b.subject)
      (st1.docs.filter (fun d => d.semester == sem_id))
    (.subjectsPage sem_id docs name (is_admin sess), st1)

/-- `download` from `src/app.py` lines 148-163. `get_or_404` is lookup by
primary key with a 404 on absence; the attachment name falls back to the
subject with spaces replaced by underscores plus `.pdf`. -/
def download (sess : Session) (doc_id : Nat) (st : DBState) : Response :=
  if (sess.user_name.getD "") == "" then .redirect .landing none
  else
    match st.docs.find? (fun d => d.id == doc_id) with
    | none => .notFound
    | some doc =>
        if !doc.has_pdf then
          .redirect (.semester_page doc.semester)
            (some ⟨"PDF not uploaded for this subject yet.", "error"⟩)
        else
          .file (doc.data.getD []) (pyOrStr doc.mimetype "application/pdf")
            true
            (pyOrStr doc.filename
              (strReplaceChar doc.subject ' ' '_' ++ ".pdf"))

/-- An uploaded file part (werkzeug `FileStorage`): its client-side
filename and its full content (`file.read()`). -/
structure FilePart where
  filename : String
  content : Bytes
deriving DecidableEq, Repr

/-- The manage form: `request.form.get("subject")` and
`request.files.get("file")`. -/
structure ManageForm where
  subject : Option String
  file : Option FilePart
deriving DecidableEq, Repr

/-- Python truthiness of `request.form.get("subject")`: `None` and the
empty string are falsy. -/
def subjectTruthy : Option String → Bool
  | none => false
  | some s => s != ""

/-- Python truthiness of a `request.files.get("file")` result: absent is
falsy, and a present `FileStorage` is falsy exactly when its filename is
empty (werkzeug defines `__bool__` as `bool(self.filename)`). -/
def fileTruthy : Option FilePart → Bool
  | none => false
  | some f => f.filename != ""

/-- `manage` from `src/app.py` lines 165-207: the admin-only page to
upload or update PDFs. Returns the response and the database state. -/
def manage (sess : Session) (m : Method) (form : ManageForm) (now : Nat)
    (st : DBState) : Response × DBState :=
  if (sess.user_name.getD "") == "" then (.redirect .landing none, st)
  else if !is_admin sess then
    (.redirect .welcome
       (some ⟨"You are not authorized to access Manage. Admin only.",
              "error"⟩),
     st)
  else
    let st1 := ensure_subject_rows now st
    match m with
    | .post =>
        if !subjectTruthy form.subject || !fileTruthy form.file then
          (.redirect .manage
             (some ⟨"Choose a subject and a PDF file.", "error"⟩), st1)
        else
          let subject := form.subject.getD ""
          let f := form.file.getD ⟨"", []⟩
          if !strEndsWith (strLower f.filename) ".pdf" then
            (.redirect .manage
               (some ⟨"Only PDF files are allowed.", "error"⟩), st1)
          else
            match st1.docs.find? (fun d => d.subject == subject) with
            | none =>
                (.redirect .manage
                   (some ⟨"Subject not found.", "error"⟩), st1)
            | some _ =>
                let st2 :=
                  { st1 with
                    docs := updateFirst (fun d => d.subject == subject)
                      (fun d =>
                        { d with
                          filename := some f.filename,
                          data := some f.content,
                          mimetype := some "application/pdf",
                          updated_at := now })
                      st1.docs }
                (.redirect .manage
                   (some ⟨"Uploaded PDF for '" ++ subject ++ "'.",
                          "success"⟩),
                 st2)
    | .get =>
        let grouped := (sortBy Nat.ble (SEMESTERS.map Prod.fst)).map
          (fun sem =>
            (sem,
             sortBy (fun a b => strLe a.subject b.subject)
               (st1.docs.filter (fun d => d.semester == sem))))
        (.managePage grouped, st1)

/-!  Claims. -/

/-- C2: the login-eligibility predicate returns true for every string
that, after trimming surrounding whitespace and lower-casing, ends with
`@gvpce.ac.in`; true for every string that after the same normalization
equals `ravitejadasari873@gmail.com`; false for every other string
(including `bob@gmail.com` and the empty string) and for any non-string
or absent input. -/
theorem claim_c2_eligibility :
    (∀ s : String,
       strEndsWith (strLower (strTrim s)) ALLOWED_DOMAIN = true →
       valid_domain_mail (.str s) = true) ∧
    (∀ s : String, strLower (strTrim s) = ADMIN_EMAIL →
       valid_domain_mail (.str s) = true) ∧
    (∀ s : String,
       strEndsWith (strLower (strTrim s)) ALLOWED_DOMAIN = false →
       strLower (strTrim s) ≠ ADMIN_EMAIL →
       valid_domain_mail (.str s) = false) ∧
    valid_domain_mail (.str "bob@gmail.com") = false ∧
    valid_domain_mail (.str "") = false ∧
    valid_domain_mail .nonstr = false := by
  refine ⟨?_, ?_, ?_, by decide, by decide, rfl⟩
  · intro s h
    simp only [valid_domain_mail, h, Bool.true_or]
  · intro s h
    simp only [valid_domain_mail, h, beq_self_eq_true, Bool.or_true]
  · intro s h1 h2
    simp only [valid_domain_mail, h1, Bool.false_or, beq_eq_false_iff_ne,
      ne_eq, h2, not_false_eq_true]

/-- Witness for C2 at concrete inputs: an institute address with noise is
accepted, a re-cased admin address is accepted, and a foreign address is
rejected. -/
theorem claim_c2_eligibility_witness :
    valid_domain_mail (.str " Asha@GVPCE.AC.IN ") = true ∧
    valid_domain_mail (.str " RaviTejadasari873@Gmail.COM") = true ∧
    valid_domain_mail (.str "bob@yahoo.com") = false :=
  ⟨claim_c2_eligibility.1 _ (by decide),
   claim_c2_eligibility.2.1 _ (by decide),
   claim_c2_eligibility.2.2.1 _ (by decide) (by decide)⟩

/-- C9: `is_admin` returns true iff the session email, trimmed and
lower-cased, equals `ravitejadasari873@gmail.com`; in particular it is
true for the session email `"Ravitejadasari873@Gmail.com "` and false for
every email that does not normalize to the admin address. -/
theorem claim_c9_is_admin :
    (∀ sess : Session,
       is_admin sess = true ↔
         strLower (strTrim (sess.user_email.getD "")) = ADMIN_EMAIL) ∧
    is_admin ⟨some "Ravi", some "Ravitejadasari873@Gmail.com "⟩ = true ∧
    (∀ sess : Session,
       strLower (strTrim (sess.user_email.getD "")) ≠ ADMIN_EMAIL →
       is_admin sess = false) := by
  refine ⟨fun sess => ?_, by decide, fun sess h => ?_⟩
  · simp only [is_admin, beq_iff_eq]
  · simp only [is_admin, beq_eq_false_iff_ne, ne_eq, h, not_false_eq_true]

/-- Witness for C9 at a concrete non-admin session. -/
theorem claim_c9_is_admin_witness :
    is_admin ⟨some "Bob", some "bob@gvpce.ac.in"⟩ = false :=
  claim_c9_is_admin.2.2 _ (by decide)

/-- C10: the bare domain string `@gvpce.ac.in` itself (empty local part),
also when surrounded by whitespace or re-cased, is accepted: eligibility
is a pure suffix test after trimming and lower-casing, with no check that
any character precedes the `@`. -/
theorem claim_c10_bare_domain :
    valid_domain_mail (.str "@gvpce.ac.in") = true ∧
    valid_domain_mail (.str "  @GVPCE.AC.IN ") = true ∧
    (∀ s : String, strLower (strTrim s) = "@gvpce.ac.in" →
       valid_domain_mail (.str s) = true) := by
  refine ⟨by decide, by decide, fun s h => ?_⟩
  simp only [valid_domain_mail, h]
  decide

/-- Witness for C10 at a concrete re-cased variant of the bare domain. -/
theorem claim_c10_bare_domain_witness :
    valid_domain_mail (.str "@GVPCE.ac.in") = true :=
  claim_c10_bare_domain.2.2 _ (by decide)

/-- `t` occurs as a contiguous substring of the character list `s`
(helper for stating that a flash message names the domain). -/
def containsSub (t : List Char) : List Char → Bool
  | [] => t.isEmpty
  | c :: rest => t.isPrefixOf (c :: rest) || containsSub t rest

/-- `t` occurs as a substring of `s`. -/
def strContains (s t : String) : Bool :=
  containsSub t.data s.data

/-- C5 counterexample: with no visitor logged in, a GET of `/semester/5`
(5 is not a catalog key) is answered with a redirect to the landing page,
not with a 404 — the session check runs before the catalog-key check, so
the response is not independent of session state. -/
theorem claim_c5_counterexample :
    (SEMESTERS.map Prod.fst).contains 5 = false ∧
    (semester_page ⟨none, none⟩ 5 0 ⟨[], 1⟩).1 ≠ Response.notFound ∧
    (semester_page ⟨none, none⟩ 5 0 ⟨[], 1⟩).1 =
      .redirect .landing none := by
  decide

/-- C5 amended: for every logged-in session (a non-empty `user_name`), a
GET of `/semester/<sem_id>` where `sem_id` is not a key of the Curriculum
Catalog responds with an HTTP 404. -/
theorem claim_c5_unknown_semester_404 (sess : Session)
    (sem_id now : Nat) (st : DBState)
    (hname : sess.user_name.getD "" ≠ "")
    (hsem : (SEMESTERS.map Prod.fst).contains sem_id = false) :
    (semester_page sess sem_id now st).1 = Response.notFound := by
  have h1 : (sess.user_name.getD "" == "") = false :=
    beq_eq_false_iff_ne.mpr hname
  simp only [semester_page, h1, hsem, Bool.not_false, Bool.false_eq_true,
    if_false, if_true]

/-- Witness for C5 amended: a logged-in visitor requesting semester 5. -/
theorem claim_c5_unknown_semester_404_witness :
    (semester_page ⟨some "Asha", some "asha@gvpce.ac.in"⟩ 5 0
        ⟨[], 1⟩).1 = Response.notFound :=
  claim_c5_unknown_semester_404 _ _ _ _ (by decide) (by decide)

/-- C6: for every logged-in session that is not the administrator, both a
GET of `/manage` and a POST to `/manage` (any form contents) respond with
a redirect to `/welcome` carrying the authorization error flash, render
no subject or upload content, and leave the database unchanged. -/
theorem claim_c6_nonadmin_manage (sess : Session) (m : Method)
    (form : ManageForm) (now : Nat) (st : DBState)
    (hname : sess.user_name.getD "" ≠ "")
    (hadmin : is_admin sess = false) :
    (manage sess m form now st).1 =
      .redirect .welcome
        (some ⟨"You are not authorized to access Manage. Admin only.",
               "error"⟩) ∧
    (manage sess m form now st).2 = st := by
  have h1 : (sess.user_name.getD "" == "") = false :=
    beq_eq_false_iff_ne.mpr hname
  have hres : manage sess m form now st =
      (.redirect .welcome
         (some ⟨"You are not authorized to access Manage. Admin only.",
                "error"⟩),
       st) := by
    unfold manage
    rw [h1, hadmin]
    rfl
  rw [hres]
  exact ⟨rfl, rfl⟩

/-- Witness for C6: a logged-in institute user, on both methods. -/
theorem claim_c6_nonadmin_manage_witness :
    (manage ⟨some "Bob", some "bob@gvpce.ac.in"⟩ .get ⟨none, none⟩ 0
        ⟨[], 1⟩).2 = ⟨[], 1⟩ ∧
    (manage ⟨some "Bob", some "bob@gvpce.ac.in"⟩ .post
        ⟨some "Operating Systems", some ⟨"notes.pdf", [7]⟩⟩ 0
        ⟨[], 1⟩).1 =
      .redirect .welcome
        (some ⟨"You are not authorized to access Manage. Admin only.",
               "error"⟩) :=
  ⟨(claim_c6_nonadmin_manage _ .get _ 0 _ (by decide) (by decide)).2,
   (claim_c6_nonadmin_manage _ .post _ 0 _ (by decide) (by decide)).1⟩

/-- C7 counterexample: the POST with name `""` and email `bob@yahoo.com`
has an email field failing the eligibility predicate, yet its error flash
is the name prompt, which does not name the required domain — the name
check runs before the email check. -/
theorem claim_c7_counterexample :
    valid_domain_mail (.str (strTrim "bob@yahoo.com")) = false ∧
    (landing .post ⟨"", "bob@yahoo.com"⟩ ⟨none, none⟩).1 =
      .redirect .landing (some ⟨"Please enter your name.", "error"⟩) ∧
    strContains "Please enter your name." ALLOWED_DOMAIN = false := by
  decide

/-- C7 amended: for every POST to `/` whose trimmed name is non-empty and
whose trimmed email fails the eligibility predicate, the response is a
redirect back to `/` with an error flash naming the required domain, the
session is left unchanged (no identity stored), and if the session had no
identity a subsequent GET of `/welcome` redirects to `/`. -/
theorem claim_c7_rejected_login (form : LoginForm) (sess : Session)
    (hn : strTrim form.name ≠ "")
    (he : valid_domain_mail (.str (strTrim form.email)) = false) :
    (∃ fl : Flash,
       (landing .post form sess).1 = .redirect .landing (some fl) ∧
       fl.category = "error" ∧
       strContains fl.message ALLOWED_DOMAIN = true) ∧
    (landing .post form sess).2 = sess ∧
    (sess.user_name.getD "" = "" →
       welcome (landing .post form sess).2 = .redirect .landing none) := by
  have h1 : (strTrim form.name == "") = false :=
    beq_eq_false_iff_ne.mpr hn
  have hres : landing .post form sess =
      (.redirect .landing
         (some ⟨"Enter a valid institute email ending with " ++
                  ALLOWED_DOMAIN ++ " (or admin email).", "error"⟩),
       sess) := by
    simp only [landing]
    rw [h1, he]
    rfl
  rw [hres]
  refine ⟨⟨_, rfl, rfl, by decide⟩, rfl, fun h0 => ?_⟩
  simp only [welcome, h0, beq_self_eq_true, if_true]

/-- Witness for C7 amended: the rejected login of the claim, from a fresh
session. -/
theorem claim_c7_rejected_login_witness :
    (landing .post ⟨"Bob", "bob@yahoo.com"⟩ ⟨none, none⟩).2 =
      (⟨none, none⟩ : Session) ∧
    welcome (landing .post ⟨"Bob", "bob@yahoo.com"⟩ ⟨none, none⟩).2 =
      .redirect .landing none :=
  ⟨(claim_c7_rejected_login ⟨"Bob", "bob@yahoo.com"⟩ ⟨none, none⟩
      (by decide) (by decide)).2.1,
   (claim_c7_rejected_login ⟨"Bob", "bob@yahoo.com"⟩ ⟨none, none⟩
      (by decide) (by decide)).2.2 (by decide)⟩

/-- C8: for every logged-in session, a GET of `/download/<id>` for an
existing Subject Document whose payload is absent or zero-length responds
with the flash "PDF not uploaded for this subject yet." and a redirect to
that record's semester-listing page — no 404 and no attachment. -/
theorem claim_c8_download_no_payload (sess : Session) (doc_id : Nat)
    (st : DBState) (d : Document)
    (hname : sess.user_name.getD "" ≠ "")
    (hfind : st.docs.find? (fun x => x.id == doc_id) = some d)
    (hnp : d.has_pdf = false) :
    download sess doc_id st =
      .redirect (.semester_page d.semester)
        (some ⟨"PDF not uploaded for this subject yet.", "error"⟩) := by
  have h1 : (sess.user_name.getD "" == "") = false :=
    beq_eq_false_iff_ne.mpr hname
  simp only [download, h1, Bool.false_eq_true, if_false]
  rw [hfind]
  simp only [hnp, Bool.not_false, if_true]

/-- The pair `(sem, subj)` is reconciled in `st`: the lookup by subject
finds a row and that row's semester is `sem`. -/
def Synced (subj : String) (sem : Nat) (st : DBState) : Prop :=
  ∃ d, st.docs.find? (fun x => x.subject == subj) = some d ∧
    d.semester = sem

/-- Updating the first `q`-match with a `q`-preserving mutation moves the
`find?` result through the mutation. -/
theorem find?_updateFirst_self (q : Document → Bool)
    (f : Document → Document) (hq : ∀ d, q (f d) = q d)
    (l : List Document) (d : Document) (h : l.find? q = some d) :
    (updateFirst q f l).find? q = some (f d) := by
  induction l with
  | nil => simp at h
  | cons a l ih =>
      unfold updateFirst
      by_cases ha : q a = true
      · rw [if_pos ha]
        rw [List.find?_cons_of_pos _ ha] at h
        obtain rfl := Option.some.inj h
        rw [List.find?_cons_of_pos _ (by rw [hq]; exact ha)]
      · rw [if_neg ha]
        rw [List.find?_cons_of_neg _ ha] at h
        rw [List.find?_cons_of_neg _ ha]
        exact ih h

/-- Updating the first `p`-match does not disturb a `find?` for a
predicate `q` that no `p`-match satisfies, when the mutation preserves
`q`. -/
theorem find?_updateFirst_ne (p q : Document → Bool)
    (f : Document → Document) (hpq : ∀ d, p d = true → q d = false)
    (hf : ∀ d, q (f d) = q d) (l : List Document) :
    (updateFirst p f l).find? q = l.find? q := by
  induction l with
  | nil => rfl
  | cons a l ih =>
      unfold updateFirst
      by_cases ha : p a = true
      · rw [if_pos ha]
        have hqa : q a = false := hpq a ha
        have hqfa : q (f a) = false := by rw [hf]; exact hqa
        rw [List.find?_cons_of_neg _ (by simp [hqfa]),
          List.find?_cons_of_neg _ (by simp [hqa])]
      · rw [if_neg ha]
        by_cases hq : q a = true
        · rw [List.find?_cons_of_pos _ hq, List.find?_cons_of_pos _ hq]
        · rw [List.find?_cons_of_neg _ hq, List.find?_cons_of_neg _ hq]
          exact ih

/-- `updateFirst` on a list decomposed at its first `q`-match rewrites
exactly that element. -/
theorem updateFirst_append (q : Document → Bool) (f : Document → Document)
    (as : List Document) (row : Document) (bs : List Document)
    (has : ∀ a ∈ as, q a = false) (hrow : q row = true) :
    updateFirst q f (as ++ row :: bs) = as ++ f row :: bs := by
  induction as with
  | nil => simp [updateFirst, hrow]
  | cons a as ih =>
      have ha : q a = false := has a (.head _)
      simp only [List.cons_append, updateFirst, ha, Bool.false_eq_true,
        if_false, List.cons.injEq, true_and]
      exact ih (fun x hx => has x (.tail _ hx))

/-- An element that fails `p` is untouched, at its position, by
`updateFirst p f`. -/
theorem getElem?_updateFirst_ne (p : Document → Bool)
    (f : Document → Document) (l : List Document) (i : Nat)
    (d : Document) (hd : l[i]? = some d) (hpd : p d = false) :
    (updateFirst p f l)[i]? = some d := by
  induction l generalizing i with
  | nil => simp at hd
  | cons a l ih =>
      cases i with
      | zero =>
          rw [List.getElem?_cons_zero] at hd
          obtain rfl := Option.some.inj hd
          unfold updateFirst
          rw [if_neg (by simp [hpd])]
          rw [List.getElem?_cons_zero]
      | succ n =>
          rw [List.getElem?_cons_succ] at hd
          unfold updateFirst
          by_cases ha : p a = true
          · rw [if_pos ha]
            rw [List.getElem?_cons_succ]
            exact hd
          · rw [if_neg ha]
            rw [List.getElem?_cons_succ]
            exact ih n hd

/-- A pair already reconciled makes its `ensureStep` a no-op. -/
theorem ensureStep_of_synced (now : Nat) (st : DBState)
    (p : Nat × String) (h : Synced p.2 p.1 st) :
    ensureStep now st p = st := by
  obtain ⟨d, hf, hs⟩ := h
  unfold ensureStep
  rw [hf]
  simp [hs]

/-- `ensureStep` reconciles its own pair. -/
theorem synced_ensureStep_self (now : Nat) (st : DBState)
    (p : Nat × String) : Synced p.2 p.1 (ensureStep now st p) := by
  unfold ensureStep
  split
  case _ hf =>
      refine ⟨⟨st.nextId, p.1, p.2, none, none, some "application/pdf",
        now⟩, ?_, rfl⟩
      simp [List.find?_append, hf]
  case _ row hf =>
      split
      case _ hne =>
          have h2 := find?_updateFirst_self (fun d => d.subject == p.2)
            (fun d => { d with semester := p.1, updated_at := now })
            (fun d => rfl) st.docs row hf
          exact ⟨_, h2, rfl⟩
      case _ hne =>
          exact ⟨row, hf, by omega⟩

/-- `ensureStep` for one pair does not disturb reconciledness of any
other subject. -/
theorem synced_ensureStep_ne (now : Nat) (st : DBState)
    (p : Nat × String) (subj : String) (sem : Nat) (hne : subj ≠ p.2)
    (h : Synced subj sem st) : Synced subj sem (ensureStep now st p) := by
  obtain ⟨d, hf, hs⟩ := h
  unfold ensureStep
  split
  case _ hf2 =>
      refine ⟨d, ?_, hs⟩
      rw [List.find?_append, hf]
      rfl
  case _ row hf2 =>
      split
      case _ hcond =>
          refine ⟨d, ?_, hs⟩
          have hpq : ∀ x : Document, (x.subject == p.2) = true →
              (x.subject == subj) = false := by
            intro x hx
            refine beq_eq_false_iff_ne.mpr ?_
            rw [beq_iff_eq.mp hx]
            exact fun e => hne e.symm
          have h2 := find?_updateFirst_ne (fun x => x.subject == p.2)
            (fun x => x.subject == subj)
            (fun x => { x with semester := p.1, updated_at := now })
            hpq (fun x => rfl) st.docs
          exact h2.trans hf
      case _ hcond => exact ⟨d, hf, hs⟩

/-- Reconciledness of a subject survives a fold over pairs that never
mention it. -/
theorem synced_foldl_of_not_mem (now : Nat) (subj : String) (sem : Nat)
    (ps : List (Nat × String)) (st : DBState)
    (hmem : subj ∉ ps.map Prod.snd) (h : Synced subj sem st) :
    Synced subj sem (ps.foldl (ensureStep now) st) := by
  induction ps generalizing st with
  | nil => exact h
  | cons p ps ih =>
      rw [List.map_cons, List.mem_cons] at hmem
      push_neg at hmem
      rw [List.foldl_cons]
      exact ih _ hmem.2 (synced_ensureStep_ne now st p subj sem hmem.1 h)

/-- After a fold over pairs with pairwise-distinct subjects, every pair
of the list is reconciled. -/
theorem synced_foldl_mem (now : Nat) :
    ∀ (ps : List (Nat × String)), (ps.map Prod.snd).Nodup →
      ∀ (st : DBState) (p : Nat × String), p ∈ ps →
        Synced p.2 p.1 (ps.foldl (ensureStep now) st) := by
  intro ps
  induction ps with
  | nil => intro _ st p hp; cases hp
  | cons q ps ih =>
      intro hnd st p hp
      rw [List.map_cons, List.nodup_cons] at hnd
      rw [List.foldl_cons]
      rcases List.mem_cons.mp hp with rfl | hp2
      · exact synced_foldl_of_not_mem now p.2 p.1 ps _ hnd.1
          (synced_ensureStep_self now st p)
      · exact ih hnd.2 _ p hp2

/-- A fold over already-reconciled pairs changes nothing. -/
theorem foldl_eq_of_synced (now : Nat) :
    ∀ (ps : List (Nat × String)) (st : DBState),
      (∀ p ∈ ps, Synced p.2 p.1 st) →
      ps.foldl (ensureStep now) st = st := by
  intro ps
  induction ps with
  | nil => intro st _; rfl
  | cons q ps ih =>
      intro st h
      rw [List.foldl_cons, ensureStep_of_synced now st q (h q (.head _))]
      exact ih st (fun p hp => h p (.tail _ hp))

/-- The curriculum catalog lists 25 pairwise-distinct subject names. -/
theorem catalog_subjects_nodup : (catalogPairs.map Prod.snd).Nodup := by
  decide

/-- C3: reconciliation is idempotent — for every database state, running
`ensure_subject_rows` twice in succession with the unchanged catalog
leaves the stored record set of the first run identical: same records,
same ids, same field values (the whole state is equal, whatever the
second run's clock reads). -/
theorem claim_c3_reconcile_idempotent (st : DBState) (t1 t2 : Nat) :
    ensure_subject_rows t2 (ensure_subject_rows t1 st) =
      ensure_subject_rows t1 st := by
  unfold ensure_subject_rows
  exact foldl_eq_of_synced t2 catalogPairs _
    (fun p hp => synced_foldl_mem t1 catalogPairs catalog_subjects_nodup
      st p hp)

/-- `ensureStep` leaves every position holding a row of a different
subject untouched. -/
theorem getElem?_ensureStep_ne (now : Nat) (st : DBState)
    (p : Nat × String) (i : Nat) (d : Document)
    (hd : st.docs[i]? = some d) (hne : (d.subject == p.2) = false) :
    (ensureStep now st p).docs[i]? = some d := by
  have hi : i < st.docs.length := by
    by_contra hge
    rw [List.getElem?_eq_none (Nat.le_of_not_lt hge)] at hd
    cases hd
  unfold ensureStep
  split
  case _ hf =>
      show (st.docs ++ [⟨st.nextId, p.1, p.2, none, none,
        some "application/pdf", now⟩])[i]? = some d
      rw [List.getElem?_append, if_pos hi]
      exact hd
  case _ row hf =>
      split
      case _ hcond => exact getElem?_updateFirst_ne _ _ _ i d hd hne
      case _ hcond => exact hd

/-- A fold over pairs none of which names a row's subject leaves that
row, at its position, untouched. -/
theorem getElem?_foldl_ne (now : Nat) :
    ∀ (ps : List (Nat × String)) (st : DBState) (i : Nat) (d : Document),
      st.docs[i]? = some d →
      (∀ p ∈ ps, (d.subject == p.2) = false) →
      (ps.foldl (ensureStep now) st).docs[i]? = some d := by
  intro ps
  induction ps with
  | nil => intro st i d hd _; exact hd
  | cons q ps ih =>
      intro st i d hd hne
      rw [List.foldl_cons]
      exact ih _ i d
        (getElem?_ensureStep_ne now st q i d hd (hne q (.head _)))
        (fun p hp => hne p (.tail _ hp))

/-- C4: reconciliation preserves records outside the catalog — a stored
record whose subject does not appear in the Curriculum Catalog is never
deleted and never altered by `ensure_subject_rows`: it still sits at its
position with every field (payload, filename, mimetype included)
unchanged. -/
theorem claim_c4_reconcile_preserves (st : DBState) (now i : Nat)
    (d : Document) (hd : st.docs[i]? = some d)
    (hs : d.subject ∉ catalogPairs.map Prod.snd) :
    (ensure_subject_rows now st).docs[i]? = some d := by
  unfold ensure_subject_rows
  refine getElem?_foldl_ne now catalogPairs st i d hd ?_
  intro p hp
  refine beq_eq_false_iff_ne.mpr ?_
  intro e
  apply hs
  rw [e]
  exact List.mem_map_of_mem Prod.snd hp

/-- A record for a subject that is not in the catalog (say, removed from
it), with an uploaded payload. -/
def ghostDoc : Document :=
  { id := 42, semester := 9, subject := "Compiler Construction",
    filename := some "cc.pdf", data := some [1, 2, 3],
    mimetype := some "application/pdf", updated_at := 5 }

/-- Witness for C4: the off-catalog record survives a reconcile run
byte-for-byte. -/
theorem claim_c4_reconcile_preserves_witness :
    (ensure_subject_rows 11 ⟨[ghostDoc], 43⟩).docs[0]? = some ghostDoc :=
  claim_c4_reconcile_preserves ⟨[ghostDoc], 43⟩ 11 0 ghostDoc rfl
    (by decide)

/-- The schema constraints the SQLite table guarantees: primary keys are
pairwise distinct and below the auto-increment counter. -/
def WellFormed (st : DBState) : Prop :=
  (st.docs.map Document.id).Nodup ∧
  ∀ n ∈ st.docs.map Document.id, n < st.nextId

/-- An id-preserving in-place mutation does not change the id column. -/
theorem map_id_updateFirst (p : Document → Bool)
    (f : Document → Document) (hf : ∀ d, (f d).id = d.id)
    (l : List Document) :
    (updateFirst p f l).map Document.id = l.map Document.id := by
  induction l with
  | nil => rfl
  | cons a l ih =>
      unfold updateFirst
      by_cases ha : p a = true
      · rw [if_pos ha]
        simp [hf]
      · rw [if_neg ha]
        simp [ih]

/-- `ensureStep` preserves the schema constraints. -/
theorem ensureStep_wf (now : Nat) (st : DBState) (p : Nat × String)
    (h : WellFormed st) : WellFormed (ensureStep now st p) := by
  obtain ⟨hnd, hbound⟩ := h
  unfold ensureStep
  split
  case _ hf =>
      refine ⟨?_, ?_⟩
      · dsimp only
        rw [List.map_append, List.nodup_append]
        refine ⟨hnd, List.nodup_singleton _, ?_⟩
        intro n hn hn2
        simp only [List.map_singleton, List.mem_singleton] at hn2
        have := hbound n hn
        omega
      · dsimp only
        intro n hn
        simp only [List.map_append, List.mem_append, List.map_singleton,
          List.mem_singleton] at hn
        rcases hn with hn | hn
        · have := hbound n hn
          omega
        · omega
  case _ row hf =>
      split
      case _ hc =>
          have hm := map_id_updateFirst (fun d => d.subject == p.2)
            (fun d => { d with semester := p.1, updated_at := now })
            (fun d => rfl) st.docs
          refine ⟨?_, ?_⟩
          · dsimp only
            rw [hm]
            exact hnd
          · dsimp only
            rw [hm]
            exact hbound
      case _ hc => exact ⟨hnd, hbound⟩

/-- Reconciliation preserves the schema constraints. -/
theorem foldl_wf (now : Nat) :
    ∀ (ps : List (Nat × String)) (st : DBState), WellFormed st →
      WellFormed (ps.foldl (ensureStep now) st) := by
  intro ps
  induction ps with
  | nil => intro st h; exact h
  | cons q ps ih =>
      intro st h
      rw [List.foldl_cons]
      exact ih _ (ensureStep_wf now st q h)

/-- C1 counterexample: with the admin logged in and an *empty* byte
content, the upload of `notes.pdf` for "Operating Systems" stores the
empty payload, but the subsequent GET of `/download/4` (that subject's
record on a fresh database) answers with the "PDF not uploaded" flash and
a redirect — not with the uploaded bytes — because `has_pdf` demands a
payload of positive length. -/
theorem claim_c1_counterexample :
    (manage ⟨some "Ravi", some "ravitejadasari873@gmail.com"⟩ .post
        ⟨some "Operating Systems", some ⟨"notes.pdf", []⟩⟩ 0
        ⟨[], 1⟩).2.docs.find?
        (fun x => x.subject == "Operating Systems") =
      some { id := 4, semester := 1, subject := "Operating Systems",
             filename := some "notes.pdf", data := some [],
             mimetype := some "application/pdf", updated_at := 0 } ∧
    download ⟨some "Ravi", some "ravitejadasari873@gmail.com"⟩ 4
        (manage ⟨some "Ravi", some "ravitejadasari873@gmail.com"⟩ .post
          ⟨some "Operating Systems", some ⟨"notes.pdf", []⟩⟩ 0
          ⟨[], 1⟩).2 =
      .redirect (.semester_page 1)
        (some ⟨"PDF not uploaded for this subject yet.", "error"⟩) ∧
    download ⟨some "Ravi", some "ravitejadasari873@gmail.com"⟩ 4
        (manage ⟨some "Ravi", some "ravitejadasari873@gmail.com"⟩ .post
          ⟨some "Operating Systems", some ⟨"notes.pdf", []⟩⟩ 0
          ⟨[], 1⟩).2 ≠
      .file [] "application/pdf" true "notes.pdf" := by
  decide

/-- The in-place mutation the `/manage` POST applies to the targeted row
when the uploaded file is named `notes.pdf`. -/
def uploadMut (content : Bytes) (now : Nat) (d : Document) : Document :=
  { d with
    filename := some "notes.pdf",
    data := some content,
    mimetype := some "application/pdf",
    updated_at := now }

/-- C1 amended: for an admin session, a well-formed database and any
*non-empty* byte content, POSTing to `/manage` the file `notes.pdf` with
subject "Operating Systems" stores that content, and a subsequent GET of
`/download/<id>` for that subject's record returns exactly the same byte
content with Content-Type `application/pdf` and an attachment filename of
`notes.pdf`. -/
theorem claim_c1_roundtrip (sess : Session) (st : DBState)
    (content : Bytes) (now : Nat)
    (hwf : WellFormed st)
    (hname : sess.user_name.getD "" ≠ "")
    (hadmin : is_admin sess = true)
    (hc : content ≠ []) :
    ∃ d : Document,
      (manage sess .post ⟨some "Operating Systems",
          some ⟨"notes.pdf", content⟩⟩ now st).2.docs.find?
          (fun x => x.subject == "Operating Systems") = some d ∧
      d.data = some content ∧
      d.filename = some "notes.pdf" ∧
      d.mimetype = some "application/pdf" ∧
      download sess d.id
          (manage sess .post ⟨some "Operating Systems",
            some ⟨"notes.pdf", content⟩⟩ now st).2 =
        .file content "application/pdf" true "notes.pdf" := by
  have h1 : (sess.user_name.getD "" == "") = false :=
    beq_eq_false_iff_ne.mpr hname
  obtain ⟨row, hfrow, hsem⟩ :
      Synced "Operating Systems" 1 (ensure_subject_rows now st) :=
    synced_foldl_mem now catalogPairs catalog_subjects_nodup st
      (1, "Operating Systems") (by decide)
  have hwf1 : WellFormed (ensure_subject_rows now st) :=
    foldl_wf now catalogPairs st hwf
  have hman : manage sess .post ⟨some "Operating Systems",
      some ⟨"notes.pdf", content⟩⟩ now st =
      (.redirect .manage
         (some ⟨"Uploaded PDF for 'Operating Systems'.", "success"⟩),
       ⟨updateFirst (fun d => d.subject == "Operating Systems")
          (uploadMut content now) (ensure_subject_rows now st).docs,
        (ensure_subject_rows now st).nextId⟩) := by
    have hsubT : subjectTruthy (some "Operating Systems") = true := rfl
    have hfileT : fileTruthy (some ⟨"notes.pdf", content⟩) = true := rfl
    have hpdfT : strEndsWith (strLower "notes.pdf") ".pdf" = true := rfl
    unfold manage
    rw [h1, hadmin]
    revert hfrow
    generalize ensure_subject_rows now st = st1
    intro hfrow
    simp only [Option.getD_some, hsubT, hfileT, hpdfT, Bool.not_true,
      Bool.or_self, Bool.false_eq_true, if_false]
    rw [hfrow]
    rfl
  obtain ⟨hqrow, as, bs, hsplit, hasneg⟩ := List.find?_eq_some.mp hfrow
  have has : ∀ a ∈ as, (a.subject == "Operating Systems") = false := by
    intro a ha
    have := hasneg a ha
    simpa using this
  have hupd : updateFirst (fun d => d.subject == "Operating Systems")
      (uploadMut content now) (ensure_subject_rows now st).docs =
      as ++ uploadMut content now row :: bs := by
    rw [hsplit]
    exact updateFirst_append _ _ as row bs has hqrow
  have hrownotin : row.id ∉ as.map Document.id := by
    intro hmem
    have h3 := hwf1.1
    rw [hsplit, List.map_append, List.map_cons] at h3
    obtain ⟨-, -, hdisj⟩ := List.nodup_append.mp h3
    exact hdisj hmem (List.mem_cons_self _ _)
  have hfind2 : (updateFirst (fun d => d.subject == "Operating Systems")
      (uploadMut content now)
      (ensure_subject_rows now st).docs).find?
      (fun x => x.id == row.id) = some (uploadMut content now row) := by
    rw [hupd, List.find?_append]
    have hnone : as.find? (fun x => x.id == row.id) = none := by
      rw [List.find?_eq_none]
      intro a ha
      simp only [beq_iff_eq]
      intro he
      apply hrownotin
      rw [← he]
      exact List.mem_map_of_mem Document.id ha
    rw [hnone, List.find?_cons_of_pos _ (by simp [uploadMut])]
    rfl
  have hpdf : Document.has_pdf (uploadMut content now row) = true := by
    simp only [Document.has_pdf, uploadMut]
    rw [decide_eq_true_eq]
    exact List.length_pos.mpr hc
  have hdl : ∀ l : List Document,
      l.find? (fun x => x.id == row.id) =
        some (uploadMut content now row) →
      ∀ k : Nat, download sess row.id ⟨l, k⟩ =
        .file content "application/pdf" true "notes.pdf" := by
    intro l hfind k
    simp only [download, h1, Bool.false_eq_true, if_false]
    rw [hfind]
    simp only [hpdf, Bool.not_true, Bool.false_eq_true, if_false]
    rfl
  rw [hman]
  dsimp only
  refine ⟨uploadMut content now row, ?_, rfl, rfl, rfl, ?_⟩
  · exact find?_updateFirst_self (fun x => x.subject == "Operating Systems")
      (uploadMut content now) (fun d => rfl) _ _ hfrow
  · exact hdl _ hfind2 (ensure_subject_rows now st).nextId

/-- Witness for C1 amended: the admin uploads one byte on a fresh
database. -/
theorem claim_c1_roundtrip_witness :
    ∃ d : Document,
      (manage ⟨some "Ravi", some "ravitejadasari873@gmail.com"⟩ .post
          ⟨some "Operating Systems", some ⟨"notes.pdf", [7]⟩⟩ 0
          ⟨[], 1⟩).2.docs.find?
          (fun x => x.subject == "Operating Systems") = some d ∧
      d.data = some [7] ∧
      d.filename = some "notes.pdf" ∧
      d.mimetype = some "application/pdf" ∧
      download ⟨some "Ravi", some "ravitejadasari873@gmail.com"⟩ d.id
          (manage ⟨some "Ravi", some "ravitejadasari873@gmail.com"⟩
            .post ⟨some "Operating Systems", some ⟨"notes.pdf", [7]⟩⟩ 0
            ⟨[], 1⟩).2 =
        .file [7] "application/pdf" true "notes.pdf" :=
  claim_c1_roundtrip ⟨some "Ravi", some "ravitejadasari873@gmail.com"⟩
    ⟨[], 1⟩ [7] 0 (by constructor <;> decide) (by decide) (by decide)
    (by decide)

/-- Witness for C8: a freshly reconciled, never-uploaded subject row. -/
theorem claim_c8_download_no_payload_witness :
    download ⟨some "Asha", some "asha@gvpce.ac.in"⟩ 3
      ⟨[{ id := 3, semester := 2, subject := "E-commerce",
          filename := none, data := none,
          mimetype := some "application/pdf", updated_at := 0 }], 4⟩ =
      .redirect (.semester_page 2)
        (some ⟨"PDF not uploaded for this subject yet.", "error"⟩) :=
  claim_c8_download_no_payload _ _ _
    { id := 3, semester := 2, subject := "E-commerce",
      filename := none, data := none,
      mimetype := some "application/pdf", updated_at := 0 }
    (by decide) (by decide) (by decide)

end BookNest
